import Mathlib

/-!
Verification of `libavcodec/extract_extradata_bsf.c` (the extract_extradata
bitstream filter).  The C source is shallowly embedded: pure scanning loops
become structural recursions over byte lists, heap allocation becomes an
explicit allocation-state (`AllocState`) threaded through the functions with
an oracle deciding which allocations succeed, and the external NAL splitter
`ff_h2645_packet_split` (whose source is not part of this repository) is a
function parameter returning either a parse error or the NAL-unit list.
-/

namespace Libav

/-- Byte buffers are lists of naturals; the C type `uint8_t` bounds them. -/
def ByteOk (l : List Nat) : Prop := ∀ b ∈ l, b < 256

instance (l : List Nat) : Decidable (ByteOk l) := by
  unfold ByteOk; infer_instance

/-- Modelled from the spec: `AVERROR(ENOMEM)` from the error header (not in
src/); the out-of-memory condition, a negative code. -/
def AVERROR_ENOMEM : Int := -12

/-- Modelled from the spec: `AVERROR_BUG`, the fatal internal-error (bug)
condition from the error header (not in src/). -/
def AVERROR_BUG : Int := -558323010

/-- Modelled from the spec: `AVERROR_INVALIDDATA`, a parse-failure code the
NAL splitter may report (header not in src/). -/
def AVERROR_INVALIDDATA : Int := -1094995529

/-- Modelled from the spec: the side-metadata kind tag "new extradata"
(`AV_PKT_DATA_NEW_EXTRADATA`, enumeration header not in src/). -/
def AV_PKT_DATA_NEW_EXTRADATA : Nat := 1

/-- Heap model: `next` is the next fresh buffer id, `live` the ids currently
allocated and not yet released. -/
structure AllocState where
  next : Nat
  live : List Nat
deriving DecidableEq, Repr

/-- Successful allocation: hand out the fresh id. -/
def AllocState.alloc (a : AllocState) : Nat × AllocState :=
  (a.next, ⟨a.next + 1, a.next :: a.live⟩)

/-- Releasing a buffer (`av_free` / `av_buffer_unref`). -/
def AllocState.free (a : AllocState) (id : Nat) : AllocState :=
  ⟨a.next, a.live.erase id⟩

/-- Well-formedness: live ids are older than `next` and not duplicated. -/
def AllocState.wf (a : AllocState) : Prop :=
  (∀ id ∈ a.live, id < a.next) ∧ a.live.Nodup

instance (a : AllocState) : Decidable a.wf := by
  unfold AllocState.wf; infer_instance

/-- `av_malloc` (also used for `av_buffer_alloc`): fallible allocation, the
oracle `allocOk` decides—per allocation counter—whether the heap request
succeeds.  On failure the heap is untouched. -/
def av_malloc (allocOk : Nat → Bool) (a : AllocState) :
    Option (Nat × AllocState) :=
  if allocOk a.next then some a.alloc else none

/-- One side-metadata entry of a packet: kind tag, owned buffer id, bytes. -/
structure SideData where
  kind : Nat
  buf : Nat
  bytes : List Nat
deriving DecidableEq, Repr

/-- An `AVPacket`: owned payload buffer (id of the backing allocation, when
refcounted), payload bytes, and the side-metadata list. -/
structure Packet where
  buf : Option Nat
  data : List Nat
  sideData : List SideData
deriving DecidableEq, Repr

/-- One NAL unit as produced by the splitter: type tag plus raw bytes. -/
structure H2645NAL where
  type : Nat
  raw_data : List Nat
deriving DecidableEq, Repr

/-- `nal->raw_size`. -/
def H2645NAL.raw_size (n : H2645NAL) : Nat := n.raw_data.length

/-- Modelled from the spec: H.264 NAL type tags (header not in src/). -/
def H264_NAL_SPS : Nat := 7

/-- Modelled from the spec: H.264 PPS NAL type tag (header not in src/). -/
def H264_NAL_PPS : Nat := 8

/-- Modelled from the spec: HEVC VPS NAL type tag (header not in src/). -/
def HEVC_NAL_VPS : Nat := 32

/-- Modelled from the spec: HEVC SPS NAL type tag (header not in src/). -/
def HEVC_NAL_SPS : Nat := 33

/-- Modelled from the spec: HEVC PPS NAL type tag (header not in src/). -/
def HEVC_NAL_PPS : Nat := 34

/-- Codec identifiers: the seven codecs of `extract_tab` plus `NONE` and a
constructor for every other registered codec. -/
inductive AVCodecID where
  | CAVS
  | H264
  | HEVC
  | MPEG1VIDEO
  | MPEG2VIDEO
  | MPEG4
  | VC1
  | NONE
  | other (n : Nat)
deriving DecidableEq, Repr

/-- The rolling 32-bit window update `state = (state << 8) | data[i]` on a
`uint32_t` state. -/
def roll (state b : Nat) : Nat := ((state <<< 8) % 4294967296) ||| b

/-- `UINT32_MAX`, the initial window value. -/
def UINT32_MAX : Nat := 4294967295

/-- The window value after consuming a byte list, starting from
`UINT32_MAX`. -/
def rollState (l : List Nat) : Nat := l.foldl roll UINT32_MAX

/-- The window value the scans see right after consuming byte `k` of
`data`. -/
def stateAt (data : List Nat) (k : Nat) : Nat := rollState (data.take (k + 1))

theorem or_disjoint256 (a b : Nat) (hb : b < 256) :
    (a * 256) ||| b = a * 256 + b := by
  apply Nat.eq_of_testBit_eq
  intro j
  rw [Nat.testBit_or]
  have h256 : a * 256 = a <<< 8 := by rw [Nat.shiftLeft_eq]
  rcases Nat.lt_or_ge j 8 with hj | hj
  · have h1 : Nat.testBit (a * 256) j = false := by
      rw [h256]
      simp [Nat.testBit_shiftLeft, Nat.not_le.mpr hj]
    have hmod : (a * 256 + b) % 2 ^ 8 = b := by omega
    have h2 := Nat.testBit_mod_two_pow (a * 256 + b) 8 j
    rw [hmod] at h2
    rw [h1, Bool.false_or, h2, decide_eq_true hj, Bool.true_and]
  · have hbj : Nat.testBit b j = false := by
      refine Nat.testBit_lt_two_pow ?_
      calc b < 256 := hb
        _ = 2 ^ 8 := by norm_num
        _ ≤ 2 ^ j := Nat.pow_le_pow_right (by norm_num) hj
    have hdiv : (a * 256 + b) >>> 8 = a := by
      rw [Nat.shiftRight_eq_div_pow]
      omega
    have h3 : Nat.testBit (a * 256 + b) j = Nat.testBit a (j - 8) := by
      have h5 := Nat.testBit_shiftRight (a * 256 + b) (i := 8) (j := j - 8)
      rw [hdiv] at h5
      have h8 : 8 + (j - 8) = j := by omega
      rw [h8] at h5
      exact h5.symm
    have h4 : Nat.testBit (a * 256) j = Nat.testBit a (j - 8) := by
      rw [h256, Nat.testBit_shiftLeft, decide_eq_true hj, Bool.true_and]
    rw [h3, h4, hbj, Bool.or_false]

theorem roll_eq (s b : Nat) (hb : b < 256) :
    roll s b = s % 16777216 * 256 + b := by
  unfold roll
  have h1 : (s <<< 8) % 4294967296 = s % 16777216 * 256 := by
    rw [Nat.shiftLeft_eq]
    have : (2 : Nat) ^ 8 = 256 := by norm_num
    rw [this]
    omega
  rw [h1, or_disjoint256 _ _ hb]

theorem roll_lt (s b : Nat) (hb : b < 256) : roll s b < 4294967296 := by
  rw [roll_eq s b hb]
  have : s % 16777216 < 16777216 := Nat.mod_lt _ (by norm_num)
  omega

theorem rollState_lt (l : List Nat) (hB : ByteOk l) :
    rollState l < 4294967296 := by
  rcases List.eq_nil_or_concat l with rfl | ⟨xs, x, rfl⟩
  · unfold rollState UINT32_MAX; simp
  · unfold rollState
    rw [List.concat_eq_append, List.foldl_append]
    exact roll_lt _ _ (hB x (by simp))

theorem and_mask_high (s : Nat) (hs : s < 4294967296) :
    s &&& 4294967040 = s - s % 256 := by
  have hr : s - s % 256 = s / 256 * 256 := by omega
  rw [hr]
  apply Nat.eq_of_testBit_eq
  intro j
  rw [Nat.testBit_and]
  have hm : (4294967040 : Nat) = 16777215 <<< 8 := by
    rw [Nat.shiftLeft_eq]
  have hms : Nat.testBit 4294967040 j =
      (decide (8 ≤ j) && decide (j - 8 < 24)) := by
    rw [hm, Nat.testBit_shiftLeft]
    congr 1
    have h24 : (16777215 : Nat) = 2 ^ 24 - 1 := by norm_num
    rw [h24, Nat.testBit_two_pow_sub_one]
  have hdiv : s / 256 * 256 = (s >>> 8) <<< 8 := by
    rw [Nat.shiftLeft_eq, Nat.shiftRight_eq_div_pow]
  rw [hms, hdiv, Nat.testBit_shiftLeft]
  rcases Nat.lt_or_ge j 8 with hj | hj
  · simp [Nat.not_le.mpr hj]
  · have hsh := Nat.testBit_shiftRight s (i := 8) (j := j - 8)
    have h8 : 8 + (j - 8) = j := by omega
    rw [h8] at hsh
    rw [hsh, decide_eq_true hj, Bool.true_and, Bool.true_and]
    rcases Nat.lt_or_ge j 32 with hj32 | hj32
    · have : j - 8 < 24 := by omega
      simp [this]
    · have hz : Nat.testBit s j = false := by
        refine Nat.testBit_lt_two_pow ?_
        calc s < 4294967296 := hs
          _ = 2 ^ 32 := by norm_num
          _ ≤ 2 ^ j := Nat.pow_le_pow_right (by norm_num) hj32
      have : ¬ (j - 8 < 24) := by omega
      simp [hz, this]

/-- Modelled from the spec: the start-code test `IS_MARKER` from the VC1
header (not in src/): the top 24 bits of the window equal `0x000001`
(`(state & ~0xFF) == 0x100` on a 32-bit state). -/
def IS_MARKER (s : Nat) : Bool := s &&& 4294967040 == 256

theorem IS_MARKER_iff (s : Nat) (hs : s < 4294967296) :
    IS_MARKER s = true ↔ 256 ≤ s ∧ s < 512 := by
  unfold IS_MARKER
  rw [beq_iff_eq, and_mask_high s hs]
  omega

/-- Modelled from the spec: the VC1 sequence-header start code
(`VC1_CODE_SEQHDR`, header not in src/). -/
def VC1_CODE_SEQHDR : Nat := 271

/-- Modelled from the spec: the VC1 entry-point start code
(`VC1_CODE_ENTRYPOINT`, header not in src/). -/
def VC1_CODE_ENTRYPOINT : Nat := 270

/-- The window is a sequence-header or entry-point marker. -/
def isHeaderCode (s : Nat) : Bool :=
  s == VC1_CODE_SEQHDR || s == VC1_CODE_ENTRYPOINT

theorem isHeaderCode_isMarker {s : Nat} (h : isHeaderCode s = true) :
    IS_MARKER s = true := by
  unfold isHeaderCode VC1_CODE_SEQHDR VC1_CODE_ENTRYPOINT at h
  rcases Bool.or_eq_true_iff.mp h with h' | h' <;>
    rw [beq_iff_eq] at h' <;> subst h' <;> decide

/-- The scanning loop of `extract_extradata_vc1`: rolling window over the
remaining bytes `l`, current index `i`, current window `state`, and the
`has_extradata` flag; returns the index at which the scan breaks out (the
marker ending the extradata region), if any. -/
def vc1_find : List Nat → Nat → Nat → Bool → Option Nat
  | [], _, _, _ => none
  | b :: rest, i, state, has =>
    let st := roll state b
    if IS_MARKER st then
      if isHeaderCode st then
        vc1_find rest (i + 1) st true
      else if has then
        some i
      else
        vc1_find rest (i + 1) st has
    else
      vc1_find rest (i + 1) st has

/-- `extradata_size` as computed by `extract_extradata_vc1`: `i - 3` (as a C
`int`) at the break index, `0` when the loop runs to completion. -/
def vc1_extradata_size (data : List Nat) : Int :=
  match vc1_find data 0 UINT32_MAX false with
  | some i => (i : Int) - 3
  | none => 0

/-- The start-code test of `extract_extradata_mpeg124`: for MPEG-1/2 any
code in `[0x100, 0x200)` other than `0x1B3`/`0x1B5`; for MPEG-4/CAVS exactly
`0x1B3` or `0x1B6`. -/
def mpeg_match (is_mpeg12 : Bool) (state : Nat) : Bool :=
  (is_mpeg12 && state != 435 && state != 437 &&
   decide (state < 512) && decide (256 ≤ state)) ||
  (!is_mpeg12 && (state == 435 || state == 438))

/-- The scanning loop of `extract_extradata_mpeg124`: returns the index of
the first qualifying start code, if any. -/
def mpeg124_find (is_mpeg12 : Bool) : List Nat → Nat → Nat → Option Nat
  | [], _, _ => none
  | b :: rest, i, state =>
    let st := roll state b
    if mpeg_match is_mpeg12 st then some i
    else mpeg124_find is_mpeg12 rest (i + 1) st

/-- `val_in_array` from the source. -/
def val_in_array : List Nat → Nat → Bool
  | [], _ => false
  | a :: arr, v => if a = v then true else val_in_array arr v

/-- `extradata_nal_types_hevc`. -/
def extradata_nal_types_hevc : List Nat :=
  [HEVC_NAL_VPS, HEVC_NAL_SPS, HEVC_NAL_PPS]

/-- `extradata_nal_types_h264`. -/
def extradata_nal_types_h264 : List Nat := [H264_NAL_SPS, H264_NAL_PPS]

/-- The per-family NAL type table selection at the top of
`extract_extradata_h2645`. -/
def nal_types_for (codec_id : AVCodecID) : List Nat :=
  if codec_id = AVCodecID.HEVC then extradata_nal_types_hevc
  else extradata_nal_types_h264

/-- The first loop of `extract_extradata_h2645`: total byte cost
(`raw_size + 3` per extracted unit) of the NAL units of extractable type. -/
def h2645_extradata_size (types : List Nat) (nals : List H2645NAL) : Nat :=
  nals.foldl
    (fun acc nal =>
      if val_in_array types nal.type then acc + (nal.raw_size + 3) else acc)
    0

/-- The second loop of `extract_extradata_h2645`: walk the NAL units in
order, appending `00 00 01` + raw bytes of each extractable unit to the
extradata cursor and—when removal is on—of each other unit to the filtered
cursor. -/
def h2645_write_loop (types : List Nat) (remove : Bool) :
    List H2645NAL → List Nat → List Nat → List Nat × List Nat
  | [], extradata, filtered => (extradata, filtered)
  | nal :: rest, extradata, filtered =>
    if val_in_array types nal.type then
      h2645_write_loop types remove rest
        (extradata ++ [0, 0, 1] ++ nal.raw_data) filtered
    else if remove then
      h2645_write_loop types remove rest extradata
        (filtered ++ [0, 0, 1] ++ nal.raw_data)
    else
      h2645_write_loop types remove rest extradata filtered

/-- Result of one strategy invocation: return code, the `*data`/`*size`
out-parameters (buffer id plus bytes, when set), the possibly mutated
packet, and the heap. -/
structure ExtractResult where
  ret : Int
  extradata : Option (Nat × List Nat)
  pkt : Packet
  alloc : AllocState
deriving DecidableEq, Repr

/-- `extract_extradata_h2645`.  The external splitter is the parameter
`split`; the resource it allocates (the transient NAL-unit list released by
`ff_h2645_packet_uninit`) is modelled—from the spec's collaborator
contract, the splitter source not being in src/—as one allocation made by
the split call whether or not the split itself succeeds.  Mirrors the C
control flow: early return on split failure; `goto fail` (which releases
the NAL list but leaves `ret` untouched at 0) on allocation failure. -/
def extract_extradata_h2645 (split : List Nat → Except Int (List H2645NAL))
    (codec_id : AVCodecID) (remove : Bool) (allocOk : Nat → Bool)
    (pkt : Packet) (a0 : AllocState) : ExtractResult :=
  let types := nal_types_for codec_id
  let na := a0.alloc
  let nalListId := na.1
  let a := na.2
  match split pkt.data with
  | .error ret => { ret := ret, extradata := none, pkt := pkt, alloc := a }
  | .ok nals =>
    let extradata_size := h2645_extradata_size types nals
    if extradata_size ≠ 0 then
      let filtered : Option (Option Nat × AllocState) :=
        if remove then
          match av_malloc allocOk a with
          | none => none
          | some (fid, a') => some (some fid, a')
        else some (none, a)
      match filtered with
      | none =>
        { ret := 0, extradata := none, pkt := pkt,
          alloc := a.free nalListId }
      | some (fid?, a1) =>
        match av_malloc allocOk a1 with
        | none =>
          let a2 := match fid? with
            | some fid => a1.free fid
            | none => a1
          { ret := 0, extradata := none, pkt := pkt,
            alloc := a2.free nalListId }
        | some (eid, a2) =>
          let w := h2645_write_loop types remove nals [] []
          if remove then
            let a3 := match pkt.buf with
              | some b => a2.free b
              | none => a2
            { ret := 0, extradata := some (eid, w.1),
              pkt := { buf := fid?, data := w.2, sideData := pkt.sideData },
              alloc := a3.free nalListId }
          else
            { ret := 0, extradata := some (eid, w.1), pkt := pkt,
              alloc := a2.free nalListId }
    else
      { ret := 0, extradata := none, pkt := pkt, alloc := a.free nalListId }

/-- `extract_extradata_vc1`. -/
def extract_extradata_vc1 (remove : Bool) (allocOk : Nat → Bool)
    (pkt : Packet) (a : AllocState) : ExtractResult :=
  let extradata_size := vc1_extradata_size pkt.data
  if extradata_size ≠ 0 then
    match av_malloc allocOk a with
    | none =>
      { ret := AVERROR_ENOMEM, extradata := none, pkt := pkt, alloc := a }
    | some (id, a') =>
      { ret := 0,
        extradata := some (id, pkt.data.take extradata_size.toNat),
        pkt := if remove then
            { pkt with data := pkt.data.drop extradata_size.toNat }
          else pkt,
        alloc := a' }
  else
    { ret := 0, extradata := none, pkt := pkt, alloc := a }

/-- The `is_mpeg12` test at the top of `extract_extradata_mpeg124`. -/
def mpeg12_flag (codec_id : AVCodecID) : Bool :=
  codec_id == AVCodecID.MPEG1VIDEO || codec_id == AVCodecID.MPEG2VIDEO

/-- `extract_extradata_mpeg124`. -/
def extract_extradata_mpeg124 (codec_id : AVCodecID) (remove : Bool)
    (allocOk : Nat → Bool) (pkt : Packet) (a : AllocState) : ExtractResult :=
  let is12 := mpeg12_flag codec_id
  match mpeg124_find is12 pkt.data 0 UINT32_MAX with
  | some i =>
    if i > 3 then
      let sz := i - 3
      match av_malloc allocOk a with
      | none =>
        { ret := AVERROR_ENOMEM, extradata := none, pkt := pkt, alloc := a }
      | some (id, a') =>
        { ret := 0, extradata := some (id, pkt.data.take sz),
          pkt := if remove then { pkt with data := pkt.data.drop sz }
            else pkt,
          alloc := a' }
    else
      { ret := 0, extradata := none, pkt := pkt, alloc := a }
  | none => { ret := 0, extradata := none, pkt := pkt, alloc := a }

/-- The three extraction strategies of the dispatch table. -/
inductive Strategy where
  | h2645
  | vc1
  | mpeg124
deriving DecidableEq, Repr

/-- `extract_tab`. -/
def extract_tab : List (AVCodecID × Strategy) :=
  [(AVCodecID.CAVS, Strategy.mpeg124),
   (AVCodecID.H264, Strategy.h2645),
   (AVCodecID.HEVC, Strategy.h2645),
   (AVCodecID.MPEG1VIDEO, Strategy.mpeg124),
   (AVCodecID.MPEG2VIDEO, Strategy.mpeg124),
   (AVCodecID.MPEG4, Strategy.mpeg124),
   (AVCodecID.VC1, Strategy.vc1)]

/-- The lookup loop of `extract_extradata_init` (`s->extract` starts out
NULL and keeps the first exact match). -/
def init_lookup : List (AVCodecID × Strategy) → AVCodecID → Option Strategy
  | [], _ => none
  | (cid, st) :: rest, id => if cid = id then some st else init_lookup rest id

/-- `extract_extradata_init`: performs no allocation; fails with
`AVERROR_BUG` when no table entry matches. -/
def extract_extradata_init (codec_id : AVCodecID) (a : AllocState) :
    Except Int Strategy × AllocState :=
  match init_lookup extract_tab codec_id with
  | some st => (.ok st, a)
  | none => (.error AVERROR_BUG, a)

/-- Dispatch of `s->extract(...)` through the selected strategy. -/
def run_extract (strat : Strategy)
    (split : List Nat → Except Int (List H2645NAL)) (codec_id : AVCodecID)
    (remove : Bool) (allocOk : Nat → Bool) (pkt : Packet) (a : AllocState) :
    ExtractResult :=
  match strat with
  | .h2645 => extract_extradata_h2645 split codec_id remove allocOk pkt a
  | .vc1 => extract_extradata_vc1 remove allocOk pkt a
  | .mpeg124 => extract_extradata_mpeg124 codec_id remove allocOk pkt a

/-- Modelled from the spec: `av_packet_add_side_data` (not in src/) appends
a side-metadata entry taking ownership of the buffer, or fails with an
allocation error leaving the packet untouched; `addOk` is the
metadata-table allocation oracle. -/
def av_packet_add_side_data (addOk : Bool) (pkt : Packet) (kind : Nat)
    (id : Nat) (bytes : List Nat) : Except Int Packet :=
  if addOk then
    .ok { pkt with sideData := pkt.sideData ++ [⟨kind, id, bytes⟩] }
  else
    .error AVERROR_ENOMEM

/-- `av_packet_free`: release the packet's payload buffer and every
side-metadata buffer it owns. -/
def av_packet_free_alloc (a : AllocState) (pkt : Packet) : AllocState :=
  let a' := match pkt.buf with
    | some b => a.free b
    | none => a
  pkt.sideData.foldl (fun acc e => acc.free e.buf) a'

/-- Result of one filter invocation. -/
structure FilterResult where
  ret : Int
  out : Option Packet
  alloc : AllocState
deriving DecidableEq, Repr

/-- `extract_extradata_filter`: run the selected strategy on the input
packet, attach produced extradata as a "new extradata" side-metadata entry,
and move the packet to the output; on any failure free the input packet
(and, if attachment failed, the extradata buffer) and propagate the code. -/
def extract_extradata_filter (strat : Strategy)
    (split : List Nat → Except Int (List H2645NAL)) (codec_id : AVCodecID)
    (remove : Bool) (allocOk : Nat → Bool) (addOk : Bool) (pkt : Packet)
    (a : AllocState) : FilterResult :=
  let r := run_extract strat split codec_id remove allocOk pkt a
  if r.ret < 0 then
    { ret := r.ret, out := none, alloc := av_packet_free_alloc r.alloc r.pkt }
  else
    match r.extradata with
    | some (id, bytes) =>
      match av_packet_add_side_data addOk r.pkt AV_PKT_DATA_NEW_EXTRADATA
          id bytes with
      | .ok pkt' => { ret := 0, out := some pkt', alloc := r.alloc }
      | .error err =>
        let a' := r.alloc.free id
        { ret := err, out := none, alloc := av_packet_free_alloc a' r.pkt }
    | none => { ret := 0, out := some r.pkt, alloc := r.alloc }

/-! ### Specification-side descriptions (from the spec's words) -/

/-- Spec-side description of the extradata the H.264/HEVC extractor must
produce: the concatenation, in original NAL order, of the 3-byte start code
`00 00 01` followed by the raw bytes, over the units of extractable
type. -/
def extradataSpec (types : List Nat) (nals : List H2645NAL) : List Nat :=
  (nals.filter (fun nal => val_in_array types nal.type)).flatMap
    (fun nal => [0, 0, 1] ++ nal.raw_data)

/-! ### Lemmas about the H.264/HEVC extractor -/

theorem h2645_size_foldl (types : List Nat) :
    ∀ (nals : List H2645NAL) (acc : Nat),
      nals.foldl
        (fun acc nal =>
          if val_in_array types nal.type then acc + (nal.raw_size + 3)
          else acc) acc
      = acc + ((nals.filter (fun nal => val_in_array types nal.type)).map
          (fun nal => nal.raw_size + 3)).sum := by
  intro nals
  induction nals with
  | nil => intro acc; simp
  | cons nal rest ih =>
    intro acc
    by_cases h : val_in_array types nal.type
    · simp only [List.foldl_cons, h, if_true, List.filter_cons,
        List.map_cons, List.sum_cons, ih]
      omega
    · simp only [List.foldl_cons, h, if_false, List.filter_cons]
      simp only [h, ih]
      simp

theorem h2645_size_eq (types : List Nat) (nals : List H2645NAL) :
    h2645_extradata_size types nals
      = ((nals.filter (fun nal => val_in_array types nal.type)).map
          (fun nal => nal.raw_size + 3)).sum := by
  unfold h2645_extradata_size
  rw [h2645_size_foldl]
  simp

theorem write_loop_fst (types : List Nat) (remove : Bool) :
    ∀ (nals : List H2645NAL) (e f : List Nat),
      (h2645_write_loop types remove nals e f).1
        = e ++ extradataSpec types nals := by
  intro nals
  induction nals with
  | nil => intro e f; simp [h2645_write_loop, extradataSpec]
  | cons nal rest ih =>
    intro e f
    simp only [h2645_write_loop]
    by_cases h : val_in_array types nal.type = true
    · rw [if_pos h, ih]
      simp [extradataSpec, List.filter_cons, h]
    · rw [if_neg h]
      cases remove with
      | true =>
        rw [if_pos rfl, ih]
        simp [extradataSpec, List.filter_cons, h]
      | false =>
        rw [if_neg Bool.false_ne_true, ih]
        simp [extradataSpec, List.filter_cons, h]

theorem bind_startcode_length (l : List H2645NAL) :
    (l.flatMap (fun nal => [0, 0, 1] ++ nal.raw_data)).length
      = (l.map (fun nal => nal.raw_size + 3)).sum := by
  induction l with
  | nil => simp
  | cons nal rest ih =>
    simp only [List.flatMap_cons, List.map_cons, List.sum_cons,
      List.length_append, ih]
    simp [H2645NAL.raw_size]
    omega

theorem extradataSpec_length (types : List Nat) (nals : List H2645NAL) :
    (extradataSpec types nals).length = h2645_extradata_size types nals := by
  rw [extradataSpec, bind_startcode_length, h2645_size_eq]

theorem h2645_size_pos (types : List Nat) (nals : List H2645NAL)
    (hex : ∃ nal ∈ nals, val_in_array types nal.type = true) :
    h2645_extradata_size types nals ≠ 0 := by
  obtain ⟨nal, hmem, hp⟩ := hex
  rw [h2645_size_eq]
  have hf : nal ∈ nals.filter (fun nal => val_in_array types nal.type) :=
    List.mem_filter.mpr ⟨hmem, hp⟩
  have hm : nal.raw_size + 3 ∈
      (nals.filter (fun nal => val_in_array types nal.type)).map
        (fun nal => nal.raw_size + 3) :=
    List.mem_map_of_mem _ hf
  have := List.single_le_sum (l :=
      (nals.filter (fun nal => val_in_array types nal.type)).map
        (fun nal => nal.raw_size + 3)) (fun x _ => Nat.zero_le x) _ hm
  omega

theorem h2645_size_zero (types : List Nat) (nals : List H2645NAL)
    (hnone : ∀ nal ∈ nals, val_in_array types nal.type = false) :
    h2645_extradata_size types nals = 0 := by
  rw [h2645_size_eq]
  have : nals.filter (fun nal => val_in_array types nal.type) = [] := by
    rw [List.filter_eq_nil_iff]
    intro nal hmem
    simp [hnone nal hmem]
  rw [this]
  simp

/-! ### Allocation-state lemmas -/

theorem AllocState.wf_alloc {a : AllocState} (h : a.wf) : a.alloc.2.wf := by
  obtain ⟨h1, h2⟩ := h
  refine ⟨?_, ?_⟩
  · intro id hid
    rcases List.mem_cons.mp hid with rfl | hid
    · exact Nat.lt_succ_self _
    · exact Nat.lt_trans (h1 id hid) (Nat.lt_succ_self _)
  · refine List.nodup_cons.mpr ⟨?_, h2⟩
    intro hmem
    exact absurd (h1 _ hmem) (Nat.lt_irrefl _)

theorem AllocState.wf_free {a : AllocState} (h : a.wf) (id : Nat) :
    (a.free id).wf := by
  obtain ⟨h1, h2⟩ := h
  exact ⟨fun x hx => h1 x (List.mem_of_mem_erase hx), h2.erase id⟩

theorem AllocState.next_not_live {a : AllocState} (h : a.wf) :
    a.next ∉ a.live := fun hmem => absurd (h.1 _ hmem) (Nat.lt_irrefl _)

theorem count_erase_le (x b : Nat) (l : List Nat) :
    (l.erase b).count x ≤ l.count x := by
  rw [List.count_erase]
  omega

theorem not_mem_erase_self_of_count (l : List Nat) (x : Nat)
    (hc : l.count x ≤ 1) : x ∉ l.erase x := by
  intro hx
  have h1 : 0 < (l.erase x).count x := List.count_pos_iff.mpr hx
  have h2 := List.count_erase_self x l
  omega

/-! ### Claims C1 and C2: h2645 error paths -/

/-- C1 (code evaluated at the failing input): on an H.264 packet whose
split yields one SPS unit, with every heap allocation failing, the
extractor returns 0 (success), not an out-of-memory error, with no
extradata set; the packet is untouched and all transient buffers are
released (live set empty again).  The claim says an out-of-memory
condition is returned; the code returns 0 because the `goto fail` paths
never set `ret`. -/
theorem claim_C1 :
    (extract_extradata_h2645 (fun _ => Except.ok [⟨7, [170, 187]⟩])
        AVCodecID.H264 false (fun _ => false) ⟨some 90, [1, 2, 3], []⟩ ⟨0, []⟩
      = { ret := 0, extradata := none, pkt := ⟨some 90, [1, 2, 3], []⟩,
          alloc := ⟨1, []⟩ }) ∧
    (extract_extradata_h2645 (fun _ => Except.ok [⟨7, [170, 187]⟩])
        AVCodecID.H264 true (fun _ => false) ⟨some 90, [1, 2, 3], []⟩ ⟨0, []⟩
      = { ret := 0, extradata := none, pkt := ⟨some 90, [1, 2, 3], []⟩,
          alloc := ⟨1, []⟩ }) ∧
    (0 : Int) ≠ AVERROR_ENOMEM :=
  ⟨rfl, rfl, by decide⟩

/-- C2 (counterexample): on a split (parse) failure the extractor returns
the error code immediately and the splitter's transient NAL-unit list
(resource id 0, allocated from the fresh heap) is *not* released — it is
still live on exit, so the release operation is not invoked on every exit
path. -/
theorem claim_C2_counterexample :
    (extract_extradata_h2645 (fun _ => Except.error AVERROR_INVALIDDATA)
        AVCodecID.H264 false (fun _ => true) ⟨none, [1, 2, 3], []⟩
        ⟨0, []⟩).alloc.live = [0] ∧
    (extract_extradata_h2645 (fun _ => Except.error AVERROR_INVALIDDATA)
        AVCodecID.H264 false (fun _ => true) ⟨none, [1, 2, 3], []⟩
        ⟨0, []⟩).ret = AVERROR_INVALIDDATA :=
  ⟨rfl, rfl⟩

/-- C2 (amended): whenever the NAL-unit split succeeds, the transient
NAL-unit list allocated by the splitter is released before the extractor
returns, on the success path as well as on every allocation-failure path.
(As stated, over *every* exit path including split failure, the claim is
false: see the counterexample.) -/
theorem claim_C2 (split : List Nat → Except Int (List H2645NAL))
    (codec_id : AVCodecID) (remove : Bool) (allocOk : Nat → Bool)
    (pkt : Packet) (a : AllocState) (nals : List H2645NAL)
    (hwf : a.wf) (hs : split pkt.data = .ok nals) :
    a.next ∉
      (extract_extradata_h2645 split codec_id remove allocOk pkt a).alloc.live := by
  have hn : a.next ∉ a.live := AllocState.next_not_live hwf
  have hc0 : a.live.count a.next = 0 := List.count_eq_zero.mpr hn
  simp only [extract_extradata_h2645, hs, AllocState.alloc, AllocState.free,
    av_malloc]
  cases remove with
  | false =>
    by_cases hsz : h2645_extradata_size (nal_types_for codec_id) nals ≠ 0
    · by_cases hA : allocOk (a.next + 1) = true
      · simp only [hsz, if_true, Bool.false_eq_true, if_false, hA]
        rw [if_pos hsz]
        apply not_mem_erase_self_of_count
        simp only [List.count_cons, beq_iff_eq, hc0]
        split_ifs <;> omega
      · simp only [hsz, if_true, Bool.false_eq_true, if_false, hA]
        rw [if_pos hsz]
        apply not_mem_erase_self_of_count
        simp only [List.count_cons, beq_iff_eq, hc0]
        split_ifs <;> omega
    · simp only [Bool.false_eq_true, if_false]
      rw [if_neg hsz]
      apply not_mem_erase_self_of_count
      simp only [List.count_cons, beq_iff_eq, hc0]
      split_ifs <;> omega
  | true =>
    by_cases hsz : h2645_extradata_size (nal_types_for codec_id) nals ≠ 0
    · by_cases hA1 : allocOk (a.next + 1) = true
      · by_cases hA2 : allocOk (a.next + 2) = true
        · simp only [hsz, hA1, hA2, if_true]
          rw [if_pos hsz]
          cases hb : pkt.buf with
          | none =>
            simp only [hb]
            apply not_mem_erase_self_of_count
            simp only [List.count_cons, beq_iff_eq, hc0]
            split_ifs <;> omega
          | some b =>
            simp only [hb]
            apply not_mem_erase_self_of_count
            have h1 : (((a.next + 1 + 1) :: (a.next + 1) :: a.next ::
                a.live).erase b).count a.next
                ≤ ((a.next + 1 + 1) :: (a.next + 1) :: a.next ::
                  a.live).count a.next :=
              count_erase_le _ _ _
            have h2 : ((a.next + 1 + 1) :: (a.next + 1) :: a.next ::
                a.live).count a.next ≤ 1 := by
              simp only [List.count_cons, beq_iff_eq, hc0]
              split_ifs <;> omega
            omega
        · simp only [hsz, hA1, hA2, if_true, if_false]
          rw [if_pos hsz]
          apply not_mem_erase_self_of_count
          have h1 := count_erase_le a.next (a.next + 1)
            ((a.next + 1) :: a.next :: a.live)
          have h2 : ((a.next + 1) :: a.next :: a.live).count a.next ≤ 1 := by
            simp only [List.count_cons, beq_iff_eq, hc0]
            split_ifs <;> omega
          omega
      · simp only [hsz, hA1, if_true, if_false]
        rw [if_pos hsz]
        apply not_mem_erase_self_of_count
        simp only [List.count_cons, beq_iff_eq, hc0]
        split_ifs <;> omega
    · simp only [Bool.false_eq_true, if_false]
      rw [if_neg hsz]
      apply not_mem_erase_self_of_count
      simp only [List.count_cons, beq_iff_eq, hc0]
      split_ifs <;> omega


/-- Witness for C2: the amended theorem applied at a concrete input. -/
theorem claim_C2_witness :
    (⟨0, []⟩ : AllocState).wf ∧
    (0 : Nat) ∉ (extract_extradata_h2645 (fun _ => Except.ok [⟨7, [170]⟩])
      AVCodecID.H264 true (fun _ => true) ⟨some 5, [1], []⟩
      ⟨0, []⟩).alloc.live :=
  ⟨by decide,
   claim_C2 (fun _ => Except.ok [⟨7, [170]⟩]) AVCodecID.H264 true
     (fun _ => true) ⟨some 5, [1], []⟩ ⟨0, []⟩ [⟨7, [170]⟩] (by decide) rfl⟩

/-! ### Claim C6: dispatch -/

theorem init_lookup_none (id : AVCodecID) :
    ∀ l : List (AVCodecID × Strategy), id ∉ l.map Prod.fst →
      init_lookup l id = none := by
  intro l
  induction l with
  | nil => intro _; rfl
  | cons p rest ih =>
    intro hmem
    obtain ⟨cid, st⟩ := p
    simp only [List.map_cons, List.mem_cons] at hmem
    push_neg at hmem
    simp only [init_lookup]
    rw [if_neg (fun h => hmem.1 h.symm)]
    exact ih hmem.2

/-- C6: initialization for a codec identifier outside the supported set
fails with the fatal `AVERROR_BUG` condition, leaving the heap untouched
(no buffers allocated); for each of the seven supported identifiers the
dispatch selects exactly the strategy of its `extract_tab` entry, also
without allocating. -/
theorem claim_C6 :
    (∀ (id : AVCodecID) (a : AllocState),
        id ∉ extract_tab.map Prod.fst →
        extract_extradata_init id a = (.error AVERROR_BUG, a)) ∧
    (∀ a : AllocState,
        extract_extradata_init .CAVS a = (.ok .mpeg124, a) ∧
        extract_extradata_init .H264 a = (.ok .h2645, a) ∧
        extract_extradata_init .HEVC a = (.ok .h2645, a) ∧
        extract_extradata_init .MPEG1VIDEO a = (.ok .mpeg124, a) ∧
        extract_extradata_init .MPEG2VIDEO a = (.ok .mpeg124, a) ∧
        extract_extradata_init .MPEG4 a = (.ok .mpeg124, a) ∧
        extract_extradata_init .VC1 a = (.ok .vc1, a)) := by
  constructor
  · intro id a hmem
    unfold extract_extradata_init
    rw [init_lookup_none id extract_tab hmem]
  · intro a
    exact ⟨rfl, rfl, rfl, rfl, rfl, rfl, rfl⟩

/-- Witness for C6: the unsupported identifiers `NONE` and an arbitrary
other registered codec id hit the fatal branch. -/
theorem claim_C6_witness :
    AVCodecID.NONE ∉ extract_tab.map Prod.fst ∧
    extract_extradata_init AVCodecID.NONE ⟨0, []⟩
      = (.error AVERROR_BUG, ⟨0, []⟩) ∧
    extract_extradata_init (AVCodecID.other 42) ⟨0, []⟩
      = (.error AVERROR_BUG, ⟨0, []⟩) :=
  ⟨by decide, claim_C6.1 AVCodecID.NONE ⟨0, []⟩ (by decide),
   claim_C6.1 (AVCodecID.other 42) ⟨0, []⟩ (by decide)⟩

/-! ### Claim C7: determinism and idempotence without removal -/

theorem h2645_pkt_remove_false (split : List Nat → Except Int (List H2645NAL))
    (codec_id : AVCodecID) (allocOk : Nat → Bool) (pkt : Packet)
    (a : AllocState) :
    (extract_extradata_h2645 split codec_id false allocOk pkt a).pkt
      = pkt := by
  simp only [extract_extradata_h2645, av_malloc, Bool.false_eq_true, if_false]
  split
  · rfl
  · split
    · split
      · rfl
      · rfl
    · rfl

theorem vc1_pkt_remove_false (allocOk : Nat → Bool) (pkt : Packet)
    (a : AllocState) :
    (extract_extradata_vc1 false allocOk pkt a).pkt = pkt := by
  simp only [extract_extradata_vc1, av_malloc, Bool.false_eq_true, if_false]
  split
  · split
    · rfl
    · rfl
  · rfl

theorem mpeg124_pkt_remove_false (codec_id : AVCodecID) (allocOk : Nat → Bool)
    (pkt : Packet) (a : AllocState) :
    (extract_extradata_mpeg124 codec_id false allocOk pkt a).pkt = pkt := by
  simp only [extract_extradata_mpeg124, av_malloc, Bool.false_eq_true,
    if_false]
  split
  · split
    · split
      · rfl
      · rfl
    · rfl
  · rfl

/-- C7: extraction is a pure, deterministic function of the packet bytes,
codec identifier and remove flag (the embedding is a function, so equal
inputs give equal outputs definitionally); moreover with `remove = false`
the packet is left unchanged, so a second extraction run on the packet
produced by the first returns exactly the same result — in particular the
same extradata bytes. -/
theorem claim_C7 (strat : Strategy)
    (split : List Nat → Except Int (List H2645NAL)) (codec_id : AVCodecID)
    (allocOk : Nat → Bool) (pkt : Packet) (a : AllocState) :
    (run_extract strat split codec_id false allocOk pkt a).pkt = pkt ∧
    run_extract strat split codec_id false allocOk
        (run_extract strat split codec_id false allocOk pkt a).pkt a
      = run_extract strat split codec_id false allocOk pkt a := by
  have hp : (run_extract strat split codec_id false allocOk pkt a).pkt
      = pkt := by
    cases strat with
    | h2645 => exact h2645_pkt_remove_false split codec_id allocOk pkt a
    | vc1 => exact vc1_pkt_remove_false allocOk pkt a
    | mpeg124 => exact mpeg124_pkt_remove_false codec_id allocOk pkt a
  exact ⟨hp, by rw [hp]⟩

/-! ### Claim C5: nothing to extract leaves the packet untouched -/

/-- C5: for each of the three strategies, when nothing qualifies — no NAL
unit of extractable type (H.264/HEVC), no qualifying marker sequence
(VC1), no qualifying start code (MPEG-1/2/4/CAVS) — no extradata is
produced and the packet (payload bytes, backing buffer and side metadata)
is returned unchanged, for either value of the remove flag and any
allocation oracle. -/
theorem claim_C5 :
    (∀ (split : List Nat → Except Int (List H2645NAL)) (cid : AVCodecID)
        (remove : Bool) (allocOk : Nat → Bool) (pkt : Packet)
        (a : AllocState) (nals : List H2645NAL),
        split pkt.data = .ok nals →
        (∀ nal ∈ nals, val_in_array (nal_types_for cid) nal.type = false) →
        (extract_extradata_h2645 split cid remove allocOk pkt a).extradata
            = none ∧
        (extract_extradata_h2645 split cid remove allocOk pkt a).pkt
            = pkt) ∧
    (∀ (remove : Bool) (allocOk : Nat → Bool) (pkt : Packet)
        (a : AllocState),
        vc1_find pkt.data 0 UINT32_MAX false = none →
        (extract_extradata_vc1 remove allocOk pkt a).extradata = none ∧
        (extract_extradata_vc1 remove allocOk pkt a).pkt = pkt) ∧
    (∀ (cid : AVCodecID) (remove : Bool) (allocOk : Nat → Bool)
        (pkt : Packet) (a : AllocState),
        mpeg124_find (mpeg12_flag cid) pkt.data 0 UINT32_MAX = none →
        (extract_extradata_mpeg124 cid remove allocOk pkt a).extradata
            = none ∧
        (extract_extradata_mpeg124 cid remove allocOk pkt a).pkt = pkt) := by
  refine ⟨?_, ?_, ?_⟩
  · intro split cid remove allocOk pkt a nals hs hno
    have hz : h2645_extradata_size (nal_types_for cid) nals = 0 :=
      h2645_size_zero _ _ hno
    constructor
    · simp only [extract_extradata_h2645, hs]
      rw [if_neg (fun h => h hz)]
    · simp only [extract_extradata_h2645, hs]
      rw [if_neg (fun h => h hz)]
  · intro remove allocOk pkt a hv
    have hz : vc1_extradata_size pkt.data = 0 := by
      unfold vc1_extradata_size
      rw [hv]
    constructor
    · simp only [extract_extradata_vc1, hz]
      rw [if_neg (fun h => h rfl)]
    · simp only [extract_extradata_vc1, hz]
      rw [if_neg (fun h => h rfl)]
  · intro cid remove allocOk pkt a hm
    constructor
    · simp only [extract_extradata_mpeg124, hm]
    · simp only [extract_extradata_mpeg124, hm]

/-- Witness for C5: a packet with a single non-parameter-set NAL unit, and
a three-byte buffer with no marker, under both values of the remove
flag. -/
theorem claim_C5_witness :
    ((extract_extradata_h2645 (fun _ => Except.ok [⟨1, [9, 9]⟩])
        AVCodecID.H264 true (fun _ => true) ⟨some 4, [5, 5, 5], []⟩
        ⟨0, []⟩).extradata = none ∧
     (extract_extradata_h2645 (fun _ => Except.ok [⟨1, [9, 9]⟩])
        AVCodecID.H264 true (fun _ => true) ⟨some 4, [5, 5, 5], []⟩
        ⟨0, []⟩).pkt = ⟨some 4, [5, 5, 5], []⟩) ∧
    ((extract_extradata_vc1 true (fun _ => true) ⟨none, [5, 5, 5], []⟩
        ⟨0, []⟩).extradata = none ∧
     (extract_extradata_vc1 true (fun _ => true) ⟨none, [5, 5, 5], []⟩
        ⟨0, []⟩).pkt = ⟨none, [5, 5, 5], []⟩) ∧
    ((extract_extradata_mpeg124 AVCodecID.MPEG4 true (fun _ => true)
        ⟨none, [5, 5, 5], []⟩ ⟨0, []⟩).extradata = none ∧
     (extract_extradata_mpeg124 AVCodecID.MPEG4 true (fun _ => true)
        ⟨none, [5, 5, 5], []⟩ ⟨0, []⟩).pkt = ⟨none, [5, 5, 5], []⟩) :=
  ⟨claim_C5.1 (fun _ => Except.ok [⟨1, [9, 9]⟩]) AVCodecID.H264 true
      (fun _ => true) ⟨some 4, [5, 5, 5], []⟩ ⟨0, []⟩ [⟨1, [9, 9]⟩] rfl
      (by decide),
   claim_C5.2.1 true (fun _ => true) ⟨none, [5, 5, 5], []⟩ ⟨0, []⟩ rfl,
   claim_C5.2.2 AVCodecID.MPEG4 true (fun _ => true) ⟨none, [5, 5, 5], []⟩
     ⟨0, []⟩ rfl⟩

/-! ### Claim C3: content of the h2645 extradata -/

/-- C3: whenever the NAL-unit split succeeds and yields at least one unit
of extractable type ({SPS, PPS} for H.264, {VPS, SPS, PPS} for HEVC) and
the allocations succeed, the produced extradata is exactly the
concatenation, in original NAL order, of `00 00 01` followed by the raw
bytes of each extractable unit, and its length is the sum of
`raw_size + 3` over those units. -/
theorem claim_C3 (split : List Nat → Except Int (List H2645NAL))
    (cid : AVCodecID) (remove : Bool) (pkt : Packet) (a : AllocState)
    (nals : List H2645NAL) (hs : split pkt.data = .ok nals)
    (hex : ∃ nal ∈ nals, val_in_array (nal_types_for cid) nal.type = true) :
    (∃ id, (extract_extradata_h2645 split cid remove (fun _ => true) pkt
        a).extradata
      = some (id, extradataSpec (nal_types_for cid) nals)) ∧
    (extradataSpec (nal_types_for cid) nals).length
      = ((nals.filter
            (fun nal => val_in_array (nal_types_for cid) nal.type)).map
          (fun nal => nal.raw_size + 3)).sum := by
  have hsz := h2645_size_pos (nal_types_for cid) nals hex
  have hw := write_loop_fst (nal_types_for cid) remove nals [] []
  rw [List.nil_append] at hw
  constructor
  · cases remove with
    | false =>
      refine ⟨a.next + 1, ?_⟩
      simp only [extract_extradata_h2645, hs, av_malloc,
        Bool.false_eq_true, if_false, if_true]
      rw [if_pos hsz]
      simp [AllocState.alloc, hw]
    | true =>
      refine ⟨a.next + 2, ?_⟩
      simp only [extract_extradata_h2645, hs, av_malloc, if_true]
      rw [if_pos hsz]
      simp [AllocState.alloc, hw]
  · rw [extradataSpec_length, h2645_size_eq]

/-- Witness for C3: spec scenario A — an H.264 packet splitting into an
SPS unit `AA BB` and an IDR-slice unit `CC DD EE` yields extradata
`00 00 01 AA BB`. -/
theorem claim_C3_witness :
    ((∃ id, (extract_extradata_h2645
        (fun _ => Except.ok [⟨7, [170, 187]⟩, ⟨5, [204, 221, 238]⟩])
        AVCodecID.H264 false (fun _ => true) ⟨none, [1], []⟩
        ⟨0, []⟩).extradata
      = some (id, extradataSpec (nal_types_for AVCodecID.H264)
          [⟨7, [170, 187]⟩, ⟨5, [204, 221, 238]⟩])) ∧
     (extradataSpec (nal_types_for AVCodecID.H264)
         [⟨7, [170, 187]⟩, ⟨5, [204, 221, 238]⟩]).length
       = ((([⟨7, [170, 187]⟩, ⟨5, [204, 221, 238]⟩] : List H2645NAL).filter
            (fun nal => val_in_array (nal_types_for AVCodecID.H264)
              nal.type)).map (fun nal => nal.raw_size + 3)).sum) ∧
    extradataSpec (nal_types_for AVCodecID.H264)
        [⟨7, [170, 187]⟩, ⟨5, [204, 221, 238]⟩] = [0, 0, 1, 170, 187] :=
  ⟨claim_C3 (fun _ => Except.ok [⟨7, [170, 187]⟩, ⟨5, [204, 221, 238]⟩])
     AVCodecID.H264 false ⟨none, [1], []⟩ ⟨0, []⟩
     [⟨7, [170, 187]⟩, ⟨5, [204, 221, 238]⟩] rfl (by decide), rfl⟩

/-! ### The VC1 scan characterization -/

/-- Property of index `j` in `data`: the window there is a marker that is
not a sequence-header/entry-point code, and some strictly earlier index
carries a sequence-header/entry-point window. -/
def vc1_stop (data : List Nat) (j : Nat) : Prop :=
  IS_MARKER (stateAt data j) = true ∧ isHeaderCode (stateAt data j) = false ∧
  ∃ i, i < j ∧ isHeaderCode (stateAt data i) = true

instance (data : List Nat) (j : Nat) : Decidable (vc1_stop data j) := by
  unfold vc1_stop
  infer_instance

theorem rollState_append (pre : List Nat) (b : Nat) :
    rollState (pre ++ [b]) = roll (rollState pre) b := by
  unfold rollState
  rw [List.foldl_append]
  rfl

theorem stateAt_append (pre : List Nat) (b : Nat) (l : List Nat) :
    stateAt (pre ++ b :: l) pre.length = roll (rollState pre) b := by
  unfold stateAt
  have h1 : (pre ++ b :: l).take (pre.length + 1) = pre ++ [b] := by
    rw [List.take_append_eq_append_take]
    have h2 : pre.take (pre.length + 1) = pre :=
      List.take_of_length_le (by omega)
    have h3 : pre.length + 1 - pre.length = 1 := by omega
    rw [h2, h3]
    rfl
  rw [h1, rollState_append]

theorem stop_step_iff (data : List Nat) (K j : Nat)
    (hK : ¬ vc1_stop data K) :
    (K + 1 ≤ j ∧ j < data.length ∧ vc1_stop data j ∧
      ∀ m, K + 1 ≤ m → m < j → ¬ vc1_stop data m) ↔
    (K ≤ j ∧ j < data.length ∧ vc1_stop data j ∧
      ∀ m, K ≤ m → m < j → ¬ vc1_stop data m) := by
  constructor
  · rintro ⟨h1, h2, h3, h4⟩
    refine ⟨by omega, h2, h3, ?_⟩
    intro m hm1 hm2
    rcases Nat.eq_or_lt_of_le hm1 with rfl | h
    · exact hK
    · exact h4 m h hm2
  · rintro ⟨h1, h2, h3, h4⟩
    have hjK : j ≠ K := fun h => hK (h ▸ h3)
    exact ⟨by omega, h2, h3, fun m hm1 hm2 => h4 m (by omega) hm2⟩

theorem vc1_find_charact (data : List Nat) :
    ∀ (l pre : List Nat) (has : Bool), data = pre ++ l →
      (has = true ↔ ∃ i, i < pre.length ∧
        isHeaderCode (stateAt data i) = true) →
      ∀ j, vc1_find l pre.length (rollState pre) has = some j ↔
        (pre.length ≤ j ∧ j < data.length ∧ vc1_stop data j ∧
         ∀ m, pre.length ≤ m → m < j → ¬ vc1_stop data m) := by
  intro l
  induction l with
  | nil =>
    intro pre has hdata hhas j
    simp only [vc1_find]
    constructor
    · intro h; exact absurd h (by simp)
    · rintro ⟨h1, h2, _, _⟩
      exfalso
      subst hdata
      simp only [List.append_nil] at h2
      omega
  | cons b rest ih =>
    intro pre has hdata hhas j
    have hlen : data.length = pre.length + 1 + rest.length := by
      subst hdata; simp; omega
    have hdata' : data = (pre ++ [b]) ++ rest := by
      subst hdata; simp
    have hSt : stateAt data pre.length = roll (rollState pre) b := by
      subst hdata; exact stateAt_append pre b rest
    have hlen' : (pre ++ [b]).length = pre.length + 1 := by simp
    have hroll : rollState (pre ++ [b]) = roll (rollState pre) b :=
      rollState_append pre b
    have ihx := ih (pre ++ [b])
    rw [hlen', hroll] at ihx
    simp only [vc1_find]
    by_cases hM : IS_MARKER (roll (rollState pre) b) = true
    · rw [if_pos hM]
      by_cases hH : isHeaderCode (roll (rollState pre) b) = true
      · rw [if_pos hH]
        have hhas' : true = true ↔ ∃ i, i < pre.length + 1 ∧
            isHeaderCode (stateAt data i) = true := by
          simp only [true_iff]
          exact ⟨pre.length, by omega, by rw [hSt]; exact hH⟩
        have hKstop : ¬ vc1_stop data pre.length := by
          rintro ⟨_, h2, _⟩
          rw [hSt] at h2
          rw [hH] at h2
          cases h2
        rw [ihx true hdata' hhas' j]
        exact stop_step_iff data pre.length j hKstop
      · rw [if_neg hH]
        cases has with
        | true =>
          rw [if_pos rfl]
          have hstopK : vc1_stop data pre.length := by
            refine ⟨by rw [hSt]; exact hM, by rw [hSt]; simpa using hH, ?_⟩
            obtain ⟨i, hi, hh⟩ := hhas.mp rfl
            exact ⟨i, hi, hh⟩
          constructor
          · intro h
            have hj : j = pre.length := (Option.some_inj.mp h).symm
            subst hj
            exact ⟨Nat.le_refl _, by omega, hstopK, fun m h1 h2 => by omega⟩
          · rintro ⟨h1, h2, h3, h4⟩
            have : j = pre.length := by
              by_contra hne
              exact h4 pre.length (Nat.le_refl _) (by omega) hstopK
            rw [this]
        | false =>
          rw [if_neg Bool.false_ne_true]
          have hnohdr : ¬ ∃ i, i < pre.length ∧
              isHeaderCode (stateAt data i) = true := by
            intro hex
            exact Bool.false_ne_true (hhas.mpr hex)
          have hhas' : false = true ↔ ∃ i, i < pre.length + 1 ∧
              isHeaderCode (stateAt data i) = true := by
            constructor
            · intro h; exact absurd h Bool.false_ne_true
            · rintro ⟨i, hi, hh⟩
              exfalso
              rcases Nat.lt_succ_iff_lt_or_eq.mp hi with hlt | rfl
              · exact hnohdr ⟨i, hlt, hh⟩
              · rw [hSt] at hh; exact absurd hh hH
          have hKstop : ¬ vc1_stop data pre.length := by
            rintro ⟨_, _, i, hi, hh⟩
            exact hnohdr ⟨i, hi, hh⟩
          rw [ihx false hdata' hhas' j]
          exact stop_step_iff data pre.length j hKstop
    · rw [if_neg hM]
      have hH : isHeaderCode (roll (rollState pre) b) = false := by
        by_contra hc
        simp only [Bool.not_eq_false] at hc
        exact hM (isHeaderCode_isMarker hc)
      have hhas' : has = true ↔ ∃ i, i < pre.length + 1 ∧
          isHeaderCode (stateAt data i) = true := by
        rw [hhas]
        constructor
        · rintro ⟨i, hi, hh⟩; exact ⟨i, by omega, hh⟩
        · rintro ⟨i, hi, hh⟩
          rcases Nat.lt_succ_iff_lt_or_eq.mp hi with hlt | rfl
          · exact ⟨i, hlt, hh⟩
          · rw [hSt] at hh
            rw [hh] at hH
            cases hH
      have hKstop : ¬ vc1_stop data pre.length := by
        rintro ⟨hmk, _, _⟩
        rw [hSt] at hmk
        exact hM hmk
      rw [ihx has hdata' hhas' j]
      exact stop_step_iff data pre.length j hKstop

theorem vc1_find_iff (data : List Nat) (j : Nat) :
    vc1_find data 0 UINT32_MAX false = some j ↔
      (j < data.length ∧ vc1_stop data j ∧
       ∀ m, m < j → ¬ vc1_stop data m) := by
  have h := vc1_find_charact data data [] false (by simp)
    (by simp [Bool.false_ne_true]) j
  simp only [List.length_nil, Nat.zero_le, true_and] at h
  have hr : rollState ([] : List Nat) = UINT32_MAX := rfl
  rw [hr] at h
  rw [h]
  constructor
  · rintro ⟨h1, h2, h3⟩
    exact ⟨h1, h2, fun m hm => h3 m trivial hm⟩
  · rintro ⟨h1, h2, h3⟩
    exact ⟨h1, h2, fun m _ hm => h3 m hm⟩

theorem stateAt_lt_u32 (data : List Nat) (hB : ByteOk data) (k : Nat) :
    stateAt data k < 4294967296 := by
  unfold stateAt
  exact rollState_lt _ (fun b hb => hB b (List.mem_of_mem_take hb))

theorem stateAt_big_of_lt_three (data : List Nat) (hB : ByteOk data)
    (k : Nat) (hk : k < 3) (hkl : k < data.length) :
    512 ≤ stateAt data k := by
  interval_cases k
  · cases data with
    | nil => simp at hkl
    | cons b0 t =>
      have hb0 := hB b0 (by simp)
      have h0 : stateAt (b0 :: t) 0 = roll UINT32_MAX b0 := rfl
      rw [h0, roll_eq _ _ hb0]
      have hu : UINT32_MAX % 16777216 = 16777215 := by norm_num [UINT32_MAX]
      rw [hu]
      omega
  · match data, hkl with
    | b0 :: b1 :: t, _ =>
      have hb0 := hB b0 (by simp)
      have hb1 := hB b1 (by simp)
      have h0 : stateAt (b0 :: b1 :: t) 1 = roll (roll UINT32_MAX b0) b1 :=
        rfl
      rw [h0, roll_eq _ _ hb1, roll_eq _ _ hb0]
      have hu : UINT32_MAX % 16777216 = 16777215 := by norm_num [UINT32_MAX]
      rw [hu]
      omega
  · match data, hkl with
    | b0 :: b1 :: b2 :: t, _ =>
      have hb0 := hB b0 (by simp)
      have hb1 := hB b1 (by simp)
      have hb2 := hB b2 (by simp)
      have h0 : stateAt (b0 :: b1 :: b2 :: t) 2
          = roll (roll (roll UINT32_MAX b0) b1) b2 := rfl
      rw [h0, roll_eq _ _ hb2, roll_eq _ _ hb1, roll_eq _ _ hb0]
      have hu : UINT32_MAX % 16777216 = 16777215 := by norm_num [UINT32_MAX]
      rw [hu]
      omega

theorem marker_ge_three (data : List Nat) (hB : ByteOk data) (k : Nat)
    (hkl : k < data.length) (hm : IS_MARKER (stateAt data k) = true) :
    3 ≤ k := by
  by_contra h
  push_neg at h
  have h1 := stateAt_big_of_lt_three data hB k h hkl
  have h2 := (IS_MARKER_iff _ (stateAt_lt_u32 data hB k)).mp hm
  omega

theorem vc1_stop_ge_four (data : List Nat) (hB : ByteOk data) (j : Nat)
    (hj : j < data.length) (hs : vc1_stop data j) : 4 ≤ j := by
  obtain ⟨hm, _, i, hij, hh⟩ := hs
  have h1 : 3 ≤ i := marker_ge_three data hB i (Nat.lt_trans hij hj)
    (isHeaderCode_isMarker hh)
  omega

theorem vc1_find_bounds (data : List Nat) (hB : ByteOk data) (j : Nat)
    (hf : vc1_find data 0 UINT32_MAX false = some j) :
    4 ≤ j ∧ j < data.length := by
  obtain ⟨h1, h2, _⟩ := (vc1_find_iff data j).mp hf
  exact ⟨vc1_stop_ge_four data hB j h1 h2, h1⟩

/-! ### MPEG scan lemmas -/

theorem mpeg124_find_some (is12 : Bool) (data : List Nat) :
    ∀ (l pre : List Nat), data = pre ++ l →
      ∀ i, mpeg124_find is12 l pre.length (rollState pre) = some i →
        pre.length ≤ i ∧ i < data.length ∧
        mpeg_match is12 (stateAt data i) = true := by
  intro l
  induction l with
  | nil =>
    intro pre _ i hf
    simp only [mpeg124_find] at hf
    cases hf
  | cons b rest ih =>
    intro pre hdata i hf
    have hSt : stateAt data pre.length = roll (rollState pre) b := by
      subst hdata; exact stateAt_append pre b rest
    simp only [mpeg124_find] at hf
    by_cases hm : mpeg_match is12 (roll (rollState pre) b) = true
    · rw [if_pos hm] at hf
      have hi : i = pre.length := (Option.some_inj.mp hf).symm
      subst hi
      refine ⟨Nat.le_refl _, ?_, by rw [hSt]; exact hm⟩
      subst hdata
      simp
    · rw [if_neg hm] at hf
      have hdata' : data = (pre ++ [b]) ++ rest := by subst hdata; simp
      have hf' : mpeg124_find is12 rest (pre ++ [b]).length
          (rollState (pre ++ [b])) = some i := by
        rw [rollState_append]
        simpa using hf
      have hr := ih (pre ++ [b]) hdata' i hf'
      simp only [List.length_append, List.length_cons, List.length_nil]
        at hr
      exact ⟨by omega, hr.2.1, hr.2.2⟩

theorem mpeg_match_range (is12 : Bool) (s : Nat)
    (h : mpeg_match is12 s = true) : 256 ≤ s ∧ s < 512 := by
  unfold mpeg_match at h
  rcases Bool.or_eq_true_iff.mp h with h' | h'
  · simp only [Bool.and_eq_true, decide_eq_true_eq] at h'
    exact ⟨h'.2, h'.1.2⟩
  · simp only [Bool.and_eq_true, Bool.or_eq_true_iff, beq_iff_eq] at h'
    rcases h'.2 with rfl | rfl <;> omega

theorem mpeg124_find_top (is12 : Bool) (data : List Nat) (i : Nat)
    (hf : mpeg124_find is12 data 0 UINT32_MAX = some i) :
    i < data.length ∧ mpeg_match is12 (stateAt data i) = true := by
  have h := mpeg124_find_some is12 data data [] (by simp) i
    (by simpa [rollState] using hf)
  exact ⟨h.2.1, h.2.2⟩

theorem mpeg124_find_ge_three (is12 : Bool) (data : List Nat)
    (hB : ByteOk data) (i : Nat)
    (hf : mpeg124_find is12 data 0 UINT32_MAX = some i) : 3 ≤ i := by
  obtain ⟨hlen, hmatch⟩ := mpeg124_find_top is12 data i hf
  by_contra h
  push_neg at h
  have h1 := stateAt_big_of_lt_three data hB i h hlen
  have h2 := mpeg_match_range is12 _ hmatch
  omega

/-! ### Output characterizations of the VC1 and MPEG extractors -/

theorem vc1_extradata_some (remove : Bool) (allocOk : Nat → Bool)
    (pkt : Packet) (a : AllocState) (id : Nat) (bytes : List Nat)
    (h : (extract_extradata_vc1 remove allocOk pkt a).extradata
      = some (id, bytes)) :
    ∃ j, vc1_find pkt.data 0 UINT32_MAX false = some j ∧
      id = a.next ∧ bytes = pkt.data.take ((j : Int) - 3).toNat := by
  by_cases hsz : vc1_extradata_size pkt.data ≠ 0
  · by_cases hA : allocOk a.next = true
    · have he : (extract_extradata_vc1 remove allocOk pkt a).extradata
          = some (a.next,
              pkt.data.take (vc1_extradata_size pkt.data).toNat) := by
        simp only [extract_extradata_vc1, av_malloc, hA, if_true]
        rw [if_pos hsz]
        rfl
      rw [he] at h
      obtain ⟨h1, h2⟩ := Prod.mk.injEq _ _ _ _ ▸ Option.some_inj.mp h
      cases hf : vc1_find pkt.data 0 UINT32_MAX false with
      | none =>
        exfalso
        apply hsz
        unfold vc1_extradata_size
        rw [hf]
      | some j =>
        refine ⟨j, rfl, h1.symm, ?_⟩
        rw [← h2]
        unfold vc1_extradata_size
        rw [hf]
    · have he : (extract_extradata_vc1 remove allocOk pkt a).extradata
          = none := by
        simp only [extract_extradata_vc1, av_malloc, hA,
          Bool.false_eq_true, if_false]
        rw [if_pos hsz]
      rw [he] at h
      cases h
  · have he : (extract_extradata_vc1 remove allocOk pkt a).extradata
        = none := by
      simp only [extract_extradata_vc1]
      rw [if_neg hsz]
    rw [he] at h
    cases h

theorem mpeg124_extradata_some (cid : AVCodecID) (remove : Bool)
    (allocOk : Nat → Bool) (pkt : Packet) (a : AllocState) (id : Nat)
    (bytes : List Nat)
    (h : (extract_extradata_mpeg124 cid remove allocOk pkt a).extradata
      = some (id, bytes)) :
    ∃ i, mpeg124_find (mpeg12_flag cid) pkt.data 0 UINT32_MAX = some i ∧
      3 < i ∧ id = a.next ∧ bytes = pkt.data.take (i - 3) := by
  cases hf : mpeg124_find (mpeg12_flag cid) pkt.data 0 UINT32_MAX with
  | none =>
    have he : (extract_extradata_mpeg124 cid remove allocOk pkt a).extradata
        = none := by
      simp only [extract_extradata_mpeg124, hf]
    rw [he] at h
    cases h
  | some i =>
    by_cases hgt : i > 3
    · by_cases hA : allocOk a.next = true
      · have he : (extract_extradata_mpeg124 cid remove allocOk pkt
            a).extradata = some (a.next, pkt.data.take (i - 3)) := by
          simp only [extract_extradata_mpeg124, hf, av_malloc, hA, if_true]
          rw [if_pos hgt]
          rfl
        rw [he] at h
        obtain ⟨h1, h2⟩ := Prod.mk.injEq _ _ _ _ ▸ Option.some_inj.mp h
        exact ⟨i, rfl, hgt, h1.symm, h2.symm⟩
      · have he : (extract_extradata_mpeg124 cid remove allocOk pkt
            a).extradata = none := by
          simp only [extract_extradata_mpeg124, hf, av_malloc, hA,
            Bool.false_eq_true, if_false]
          rw [if_pos hgt]
        rw [he] at h
        cases h
    · have he : (extract_extradata_mpeg124 cid remove allocOk pkt
          a).extradata = none := by
        simp only [extract_extradata_mpeg124, hf]
        rw [if_neg hgt]
      rw [he] at h
      cases h

theorem vc1_extract_at (remove : Bool) (pkt : Packet) (a : AllocState)
    (j : Nat) (hB : ByteOk pkt.data)
    (hf : vc1_find pkt.data 0 UINT32_MAX false = some j) :
    (extract_extradata_vc1 remove (fun _ => true) pkt a).extradata
      = some (a.next, pkt.data.take (j - 3)) := by
  obtain ⟨h4, hlen⟩ := vc1_find_bounds pkt.data hB j hf
  have hsz : vc1_extradata_size pkt.data = (j : Int) - 3 := by
    unfold vc1_extradata_size
    rw [hf]
  have hsznz : vc1_extradata_size pkt.data ≠ 0 := by
    rw [hsz]
    omega
  have ht : (vc1_extradata_size pkt.data).toNat = j - 3 := by
    rw [hsz]
    omega
  simp only [extract_extradata_vc1, av_malloc, if_true]
  rw [if_pos hsznz, ht]
  rfl

/-! ### Claim C10: full characterization of the VC1 extractor -/

/-- C10: the VC1 extractor produces extradata exactly when the scan finds
an index `j` carrying a non-header marker preceded (strictly earlier) by a
sequence-header or entry-point window, `j` least such; the extradata is
then the first `j - 3` bytes of the buffer.  Non-header markers seen
before any header marker do not stop the scan (they are not stop indices,
having no earlier header), so the extracted prefix may contain complete
non-header segments preceding the first header marker. -/
theorem claim_C10 (pkt : Packet) (a : AllocState) (remove : Bool)
    (hB : ByteOk pkt.data) :
    (∀ j, vc1_find pkt.data 0 UINT32_MAX false = some j ↔
      (j < pkt.data.length ∧ vc1_stop pkt.data j ∧
       ∀ m, m < j → ¬ vc1_stop pkt.data m)) ∧
    (∀ j, vc1_find pkt.data 0 UINT32_MAX false = some j →
      (extract_extradata_vc1 remove (fun _ => true) pkt a).extradata
        = some (a.next, pkt.data.take (j - 3))) ∧
    (vc1_find pkt.data 0 UINT32_MAX false = none →
      (extract_extradata_vc1 remove (fun _ => true) pkt a).extradata
        = none) := by
  refine ⟨fun j => vc1_find_iff pkt.data j,
    fun j hf => vc1_extract_at remove pkt a j hB hf, fun hn => ?_⟩
  have hz : vc1_extradata_size pkt.data = 0 := by
    unfold vc1_extradata_size
    rw [hn]
  simp only [extract_extradata_vc1]
  rw [if_neg (fun hc => hc hz)]

/-- Witness for C10: a buffer holding a frame marker (skipped — no header
seen yet), then a sequence-header marker, then a frame marker where the
scan stops at index 11; the extradata is the first 8 bytes, which include
the complete leading non-header segment. -/
theorem claim_C10_witness :
    (extract_extradata_vc1 false (fun _ => true)
        ⟨none, [0, 0, 1, 13, 0, 0, 1, 15, 0, 0, 1, 13], []⟩
        ⟨0, []⟩).extradata
      = some (0, ([0, 0, 1, 13, 0, 0, 1, 15, 0, 0, 1, 13] :
          List Nat).take (11 - 3)) ∧
    ([0, 0, 1, 13, 0, 0, 1, 15, 0, 0, 1, 13] : List Nat).take (11 - 3)
      = [0, 0, 1, 13, 0, 0, 1, 15] :=
  ⟨(claim_C10 ⟨none, [0, 0, 1, 13, 0, 0, 1, 15, 0, 0, 1, 13], []⟩ ⟨0, []⟩
      false (by decide)).2.1 11 rfl, rfl⟩

/-! ### Claim C8: scan safety bounds -/

/-- C8: the VC1 and MPEG-1/2/4 rolling-window scans never produce a
negative extradata length nor one exceeding the buffer length; a VC1 stop
at index below 3 cannot produce extradata, and an MPEG match at index at
most 3 produces none. -/
theorem claim_C8 :
    (∀ (remove : Bool) (allocOk : Nat → Bool) (pkt : Packet)
        (a : AllocState), ByteOk pkt.data →
      (0 ≤ vc1_extradata_size pkt.data ∧
       vc1_extradata_size pkt.data ≤ (pkt.data.length : Int)) ∧
      (∀ j, vc1_find pkt.data 0 UINT32_MAX false = some j → j < 3 →
        (extract_extradata_vc1 remove allocOk pkt a).extradata = none) ∧
      (∀ id bytes,
        (extract_extradata_vc1 remove allocOk pkt a).extradata
          = some (id, bytes) →
        1 ≤ bytes.length ∧ bytes.length ≤ pkt.data.length)) ∧
    (∀ (cid : AVCodecID) (remove : Bool) (allocOk : Nat → Bool)
        (pkt : Packet) (a : AllocState), ByteOk pkt.data →
      (∀ i, mpeg124_find (mpeg12_flag cid) pkt.data 0 UINT32_MAX = some i →
        i ≤ 3 →
        (extract_extradata_mpeg124 cid remove allocOk pkt a).extradata
          = none) ∧
      (∀ id bytes,
        (extract_extradata_mpeg124 cid remove allocOk pkt a).extradata
          = some (id, bytes) →
        1 ≤ bytes.length ∧ bytes.length ≤ pkt.data.length)) := by
  constructor
  · intro remove allocOk pkt a hB
    refine ⟨?_, ?_, ?_⟩
    · cases hf : vc1_find pkt.data 0 UINT32_MAX false with
      | none =>
        have hz : vc1_extradata_size pkt.data = 0 := by
          unfold vc1_extradata_size
          rw [hf]
        rw [hz]
        constructor
        · omega
        · positivity
      | some j =>
        obtain ⟨h4, hlen⟩ := vc1_find_bounds pkt.data hB j hf
        have hz : vc1_extradata_size pkt.data = (j : Int) - 3 := by
          unfold vc1_extradata_size
          rw [hf]
        rw [hz]
        omega
    · intro j hf hj
      exact absurd (vc1_find_bounds pkt.data hB j hf).1 (by omega)
    · intro id bytes h
      obtain ⟨j, hf, _, hbytes⟩ := vc1_extradata_some remove allocOk pkt a
        id bytes h
      obtain ⟨h4, hlen⟩ := vc1_find_bounds pkt.data hB j hf
      have ht : ((j : Int) - 3).toNat = j - 3 := by omega
      rw [hbytes, ht]
      simp only [List.length_take]
      omega
  · intro cid remove allocOk pkt a hB
    constructor
    · intro i hf hi
      simp only [extract_extradata_mpeg124, hf]
      rw [if_neg (by omega)]
    · intro id bytes h
      obtain ⟨i, hf, hgt, _, hbytes⟩ := mpeg124_extradata_some cid remove
        allocOk pkt a id bytes h
      obtain ⟨hlen, _⟩ := mpeg124_find_top (mpeg12_flag cid) pkt.data i hf
      rw [hbytes]
      simp only [List.length_take]
      omega

/-- Witness for C8: the VC1 bounds at a buffer with header marker at 3 and
frame marker at 7 (extradata 4 bytes out of 8), and the MPEG-1/2 branch at
a buffer starting with a picture start code (match index 3, no extradata)
and at one matching at index 13 (10 bytes out of 14). -/
theorem claim_C8_witness :
    ((0 ≤ vc1_extradata_size [0, 0, 1, 15, 0, 0, 1, 13] ∧
      vc1_extradata_size [0, 0, 1, 15, 0, 0, 1, 13]
        ≤ (([0, 0, 1, 15, 0, 0, 1, 13] : List Nat).length : Int)) ∧
     (1 ≤ ([0, 0, 1, 15] : List Nat).length ∧
      ([0, 0, 1, 15] : List Nat).length
        ≤ ([0, 0, 1, 15, 0, 0, 1, 13] : List Nat).length)) ∧
    ((extract_extradata_mpeg124 AVCodecID.MPEG2VIDEO false (fun _ => true)
        ⟨none, [0, 0, 1, 0], []⟩ ⟨0, []⟩).extradata = none ∧
     (1 ≤ ([255, 255, 255, 255, 255, 255, 255, 255, 255, 255] :
        List Nat).length ∧
      ([255, 255, 255, 255, 255, 255, 255, 255, 255, 255] :
        List Nat).length
        ≤ ([255, 255, 255, 255, 255, 255, 255, 255, 255, 255, 0, 0, 1,
            0] : List Nat).length)) :=
  ⟨⟨(claim_C8.1 false (fun _ => true) ⟨none, [0, 0, 1, 15, 0, 0, 1, 13], []⟩
      ⟨0, []⟩ (by decide)).1,
    (claim_C8.1 false (fun _ => true) ⟨none, [0, 0, 1, 15, 0, 0, 1, 13], []⟩
      ⟨0, []⟩ (by decide)).2.2 0 [0, 0, 1, 15] rfl⟩,
   ⟨(claim_C8.2 AVCodecID.MPEG2VIDEO false (fun _ => true)
      ⟨none, [0, 0, 1, 0], []⟩ ⟨0, []⟩ (by decide)).1 3 rfl (by omega),
    (claim_C8.2 AVCodecID.MPEG2VIDEO false (fun _ => true)
      ⟨none, [255, 255, 255, 255, 255, 255, 255, 255, 255, 255, 0, 0, 1,
        0], []⟩ ⟨0, []⟩ (by decide)).2 0
      [255, 255, 255, 255, 255, 255, 255, 255, 255, 255] rfl⟩⟩

/-! ### Claim C4: the MPEG-2 picture-start-code scenario -/

/-- C4 (counterexample): an MPEG-2 buffer of ten `FF` bytes followed by
the picture start code `00 00 01 00` — the code begins at byte offset 10
and its final byte is consumed at scan index 13.  The extractor emits the
first 10 bytes (`i - 3` with `i = 13`), not the first 7 the claim
states. -/
theorem claim_C4_counterexample :
    (extract_extradata_mpeg124 AVCodecID.MPEG2VIDEO false (fun _ => true)
        ⟨none, [255, 255, 255, 255, 255, 255, 255, 255, 255, 255, 0, 0, 1,
          0], []⟩ ⟨0, []⟩).extradata
      = some (0, [255, 255, 255, 255, 255, 255, 255, 255, 255, 255]) ∧
    ([255, 255, 255, 255, 255, 255, 255, 255, 255, 255] : List Nat)
      ≠ ([255, 255, 255, 255, 255, 255, 255, 255, 255, 255, 0, 0, 1, 0] :
          List Nat).take 7 ∧
    mpeg124_find true [255, 255, 255, 255, 255, 255, 255, 255, 255, 255,
        0, 0, 1, 0] 0 UINT32_MAX = some 13 ∧
    stateAt [255, 255, 255, 255, 255, 255, 255, 255, 255, 255, 0, 0, 1, 0]
        13 = 256 :=
  ⟨rfl, by decide, rfl, rfl⟩

/-- C4 (amended): for an MPEG-1/2 buffer whose first qualifying start code
is a picture start code (window value `0x100`) beginning at byte offset
10 — so the scan's first match happens at index `i = 13`, where the code's
final byte is consumed — the extractor produces extradata equal to the
first 10 bytes of the buffer (`i - 3` bytes, `i - 3` being the code's
beginning offset). -/
theorem claim_C4 (pkt : Packet) (a : AllocState) (remove : Bool)
    (hf : mpeg124_find (mpeg12_flag AVCodecID.MPEG2VIDEO) pkt.data 0
      UINT32_MAX = some 13)
    (_hpic : stateAt pkt.data 13 = 256) :
    (extract_extradata_mpeg124 AVCodecID.MPEG2VIDEO remove (fun _ => true)
        pkt a).extradata = some (a.next, pkt.data.take 10) := by
  simp only [extract_extradata_mpeg124, hf, av_malloc, if_true]
  rw [if_pos (by omega : (13 : Nat) > 3)]
  rfl

/-- Witness for C4: the amended theorem at the scenario's buffer. -/
theorem claim_C4_witness :
    (extract_extradata_mpeg124 AVCodecID.MPEG2VIDEO true (fun _ => true)
        ⟨none, [254, 254, 254, 254, 254, 254, 254, 254, 254, 254, 0, 0, 1,
          0], []⟩ ⟨0, []⟩).extradata
      = some (0, ([254, 254, 254, 254, 254, 254, 254, 254, 254, 254, 0, 0,
          1, 0] : List Nat).take 10) :=
  claim_C4 ⟨none, [254, 254, 254, 254, 254, 254, 254, 254, 254, 254, 0, 0,
    1, 0], []⟩ ⟨0, []⟩ true rfl rfl

/-! ### Claim C9: the filter step and side-data attachment -/

theorem vc1_wf (remove : Bool) (allocOk : Nat → Bool) (pkt : Packet)
    (a : AllocState) (h : a.wf) :
    (extract_extradata_vc1 remove allocOk pkt a).alloc.wf := by
  simp only [extract_extradata_vc1, av_malloc, AllocState.alloc]
  by_cases hA : allocOk a.next = true
  · simp only [hA, if_true]
    split
    · exact AllocState.wf_alloc h
    · exact h
  · simp only [hA, Bool.false_eq_true, if_false]
    split
    · exact h
    · exact h

theorem mpeg124_wf (cid : AVCodecID) (remove : Bool) (allocOk : Nat → Bool)
    (pkt : Packet) (a : AllocState) (h : a.wf) :
    (extract_extradata_mpeg124 cid remove allocOk pkt a).alloc.wf := by
  simp only [extract_extradata_mpeg124, av_malloc, AllocState.alloc]
  split
  · by_cases hA : allocOk a.next = true
    · simp only [hA, if_true]
      split
      · exact AllocState.wf_alloc h
      · exact h
    · simp only [hA, Bool.false_eq_true, if_false]
      split
      · exact h
      · exact h
  · exact h
theorem h2645_wf (split : List Nat → Except Int (List H2645NAL))
    (codec_id : AVCodecID) (remove : Bool) (allocOk : Nat → Bool)
    (pkt : Packet) (a : AllocState) (h : a.wf) :
    (extract_extradata_h2645 split codec_id remove allocOk pkt
      a).alloc.wf := by
  cases hs : split pkt.data with
  | error e =>
    simp only [extract_extradata_h2645, hs]
    exact AllocState.wf_alloc h
  | ok nals =>
    simp only [extract_extradata_h2645, hs, av_malloc]
    cases remove with
    | false =>
      by_cases hsz : h2645_extradata_size (nal_types_for codec_id) nals ≠ 0
      · by_cases hA : allocOk a.alloc.2.next = true
        · simp only [hA, if_true, Bool.false_eq_true, if_false]
          rw [if_pos hsz]
          repeat
            first
            | apply AllocState.wf_free
            | apply AllocState.wf_alloc
          exact h
        · simp only [hA, Bool.false_eq_true, if_false]
          rw [if_pos hsz]
          repeat
            first
            | apply AllocState.wf_free
            | apply AllocState.wf_alloc
          exact h
      · simp only [Bool.false_eq_true, if_false]
        rw [if_neg hsz]
        repeat
          first
          | apply AllocState.wf_free
          | apply AllocState.wf_alloc
        exact h
    | true =>
      by_cases hsz : h2645_extradata_size (nal_types_for codec_id) nals ≠ 0
      · by_cases hA1 : allocOk a.alloc.2.next = true
        · by_cases hA2 : allocOk a.alloc.2.alloc.2.next = true
          · simp only [hA1, hA2, if_true]
            rw [if_pos hsz]
            cases hb : pkt.buf with
            | none =>
              simp only [hb]
              repeat
                first
                | apply AllocState.wf_free
                | apply AllocState.wf_alloc
              exact h
            | some b =>
              simp only [hb]
              repeat
                first
                | apply AllocState.wf_free
                | apply AllocState.wf_alloc
              exact h
          · simp only [hA1, hA2, if_true, Bool.false_eq_true, if_false]
            rw [if_pos hsz]
            repeat
              first
              | apply AllocState.wf_free
              | apply AllocState.wf_alloc
            exact h
        · simp only [hA1, if_true, Bool.false_eq_true, if_false]
          rw [if_pos hsz]
          repeat
            first
            | apply AllocState.wf_free
            | apply AllocState.wf_alloc
          exact h
      · simp only [Bool.false_eq_true, if_false]
        rw [if_neg hsz]
        repeat
          first
          | apply AllocState.wf_free
          | apply AllocState.wf_alloc
        exact h

theorem run_extract_wf (strat : Strategy)
    (split : List Nat → Except Int (List H2645NAL)) (codec_id : AVCodecID)
    (remove : Bool) (allocOk : Nat → Bool) (pkt : Packet) (a : AllocState)
    (h : a.wf) :
    (run_extract strat split codec_id remove allocOk pkt a).alloc.wf := by
  cases strat with
  | h2645 => exact h2645_wf split codec_id remove allocOk pkt a h
  | vc1 => exact vc1_wf remove allocOk pkt a h
  | mpeg124 => exact mpeg124_wf codec_id remove allocOk pkt a h

theorem not_mem_foldl_free (id : Nat) :
    ∀ (l : List SideData) (acc : AllocState), id ∉ acc.live →
      id ∉ (l.foldl (fun acc e => acc.free e.buf) acc).live := by
  intro l
  induction l with
  | nil => intro acc h; exact h
  | cons e rest ih =>
    intro acc h
    refine ih (acc.free e.buf) ?_
    intro hmem
    exact h (List.mem_of_mem_erase hmem)

theorem not_mem_free_alloc (a : AllocState) (pkt : Packet) (id : Nat)
    (h : id ∉ a.live) : id ∉ (av_packet_free_alloc a pkt).live := by
  unfold av_packet_free_alloc
  refine not_mem_foldl_free id pkt.sideData _ ?_
  cases hb : pkt.buf with
  | none => exact h
  | some b =>
    intro hmem
    exact h (List.mem_of_mem_erase hmem)

/-- C9: in the filter step, when the selected strategy succeeds (return
code non-negative) and reports extradata, the extradata is attached to the
packet as a side-metadata entry of kind "new extradata" (ownership of the
buffer moves into the packet; the heap is untouched) and the filter
returns 0; if the attachment fails, the extradata buffer is released (no
longer live) and the attachment failure code is propagated with no output
packet. -/
theorem claim_C9 (strat : Strategy)
    (split : List Nat → Except Int (List H2645NAL)) (codec_id : AVCodecID)
    (remove : Bool) (allocOk : Nat → Bool) (addOk : Bool) (pkt : Packet)
    (a : AllocState) (id : Nat) (bytes : List Nat) (hwf : a.wf)
    (hret : 0 ≤ (run_extract strat split codec_id remove allocOk pkt a).ret)
    (hext : (run_extract strat split codec_id remove allocOk pkt
        a).extradata = some (id, bytes)) :
    (addOk = true →
      (extract_extradata_filter strat split codec_id remove allocOk addOk
        pkt a).ret = 0 ∧
      (extract_extradata_filter strat split codec_id remove allocOk addOk
        pkt a).out
        = some { (run_extract strat split codec_id remove allocOk pkt
              a).pkt with
            sideData := (run_extract strat split codec_id remove allocOk
                pkt a).pkt.sideData
              ++ [⟨AV_PKT_DATA_NEW_EXTRADATA, id, bytes⟩] } ∧
      (extract_extradata_filter strat split codec_id remove allocOk addOk
        pkt a).alloc
        = (run_extract strat split codec_id remove allocOk pkt a).alloc) ∧
    (addOk = false →
      (extract_extradata_filter strat split codec_id remove allocOk addOk
        pkt a).ret = AVERROR_ENOMEM ∧
      (extract_extradata_filter strat split codec_id remove allocOk addOk
        pkt a).out = none ∧
      id ∉ (extract_extradata_filter strat split codec_id remove allocOk
        addOk pkt a).alloc.live) := by
  have hlt : ¬ ((run_extract strat split codec_id remove allocOk pkt
      a).ret < 0) := Int.not_lt.mpr hret
  constructor
  · intro hT
    subst hT
    refine ⟨?_, ?_, ?_⟩
    · simp only [extract_extradata_filter]
      rw [if_neg hlt, hext]
      rfl
    · simp only [extract_extradata_filter]
      rw [if_neg hlt, hext]
      rfl
    · simp only [extract_extradata_filter]
      rw [if_neg hlt, hext]
      rfl
  · intro hF
    subst hF
    have hwfr := run_extract_wf strat split codec_id remove allocOk pkt a
      hwf
    have hcount : (run_extract strat split codec_id remove allocOk pkt
        a).alloc.live.count id ≤ 1 :=
      List.nodup_iff_count_le_one.mp hwfr.2 id
    have hni : id ∉ ((run_extract strat split codec_id remove allocOk pkt
        a).alloc.free id).live :=
      not_mem_erase_self_of_count _ _ hcount
    have heq : (extract_extradata_filter strat split codec_id remove
        allocOk false pkt a).alloc
        = av_packet_free_alloc ((run_extract strat split codec_id remove
            allocOk pkt a).alloc.free id)
          (run_extract strat split codec_id remove allocOk pkt a).pkt := by
      simp only [extract_extradata_filter]
      rw [if_neg hlt, hext]
      rfl
    refine ⟨?_, ?_, ?_⟩
    · simp only [extract_extradata_filter]
      rw [if_neg hlt, hext]
      rfl
    · simp only [extract_extradata_filter]
      rw [if_neg hlt, hext]
      rfl
    · rw [heq]
      exact not_mem_free_alloc _ _ _ hni

/-- Witness for C9: a VC1 packet producing extradata `00 00 01 0F`, run
through the filter once with attachment succeeding and once with it
failing. -/
theorem claim_C9_witness :
    ((extract_extradata_filter Strategy.vc1 (fun _ => Except.ok [])
        AVCodecID.VC1 false (fun _ => true) true
        ⟨none, [0, 0, 1, 15, 0, 0, 1, 13], []⟩ ⟨0, []⟩).ret = 0 ∧
     (extract_extradata_filter Strategy.vc1 (fun _ => Except.ok [])
        AVCodecID.VC1 false (fun _ => true) true
        ⟨none, [0, 0, 1, 15, 0, 0, 1, 13], []⟩ ⟨0, []⟩).out
       = some ⟨none, [0, 0, 1, 15, 0, 0, 1, 13],
           [⟨AV_PKT_DATA_NEW_EXTRADATA, 0, [0, 0, 1, 15]⟩]⟩) ∧
    ((extract_extradata_filter Strategy.vc1 (fun _ => Except.ok [])
        AVCodecID.VC1 false (fun _ => true) false
        ⟨none, [0, 0, 1, 15, 0, 0, 1, 13], []⟩ ⟨0, []⟩).ret
       = AVERROR_ENOMEM ∧
     (extract_extradata_filter Strategy.vc1 (fun _ => Except.ok [])
        AVCodecID.VC1 false (fun _ => true) false
        ⟨none, [0, 0, 1, 15, 0, 0, 1, 13], []⟩ ⟨0, []⟩).out = none ∧
     (0 : Nat) ∉ (extract_extradata_filter Strategy.vc1
        (fun _ => Except.ok []) AVCodecID.VC1 false (fun _ => true) false
        ⟨none, [0, 0, 1, 15, 0, 0, 1, 13], []⟩ ⟨0, []⟩).alloc.live) :=
  ⟨⟨((claim_C9 Strategy.vc1 (fun _ => Except.ok []) AVCodecID.VC1 false
       (fun _ => true) true ⟨none, [0, 0, 1, 15, 0, 0, 1, 13], []⟩ ⟨0, []⟩
       0 [0, 0, 1, 15] (by decide) (by decide) rfl).1 rfl).1,
    ((claim_C9 Strategy.vc1 (fun _ => Except.ok []) AVCodecID.VC1 false
       (fun _ => true) true ⟨none, [0, 0, 1, 15, 0, 0, 1, 13], []⟩ ⟨0, []⟩
       0 [0, 0, 1, 15] (by decide) (by decide) rfl).1 rfl).2.1⟩,
   ⟨((claim_C9 Strategy.vc1 (fun _ => Except.ok []) AVCodecID.VC1 false
       (fun _ => true) false ⟨none, [0, 0, 1, 15, 0, 0, 1, 13], []⟩
       ⟨0, []⟩ 0 [0, 0, 1, 15] (by decide) (by decide) rfl).2 rfl).1,
    ((claim_C9 Strategy.vc1 (fun _ => Except.ok []) AVCodecID.VC1 false
       (fun _ => true) false ⟨none, [0, 0, 1, 15, 0, 0, 1, 13], []⟩
       ⟨0, []⟩ 0 [0, 0, 1, 15] (by decide) (by decide) rfl).2 rfl).2.1,
    ((claim_C9 Strategy.vc1 (fun _ => Except.ok []) AVCodecID.VC1 false
       (fun _ => true) false ⟨none, [0, 0, 1, 15, 0, 0, 1, 13], []⟩
       ⟨0, []⟩ 0 [0, 0, 1, 15] (by decide) (by decide) rfl).2 rfl).2.2⟩⟩

end Libav
